import Mathlib

/-!
Verification of the IFC viewer core (`src/components/IFCViewer.tsx`) against its
natural-language specification.  The TypeScript functions are shallowly embedded
as Lean definitions: list/rational/integer data for the batch compositor and the
pointer-gesture logic, real numbers for the alignment solver, the spherical
camera and the panorama remapper.
-/

namespace IFCView

/-! ## Batch compositor (`rebuildMergedMeshes`, IFCViewer.tsx lines 223-307)

A mesh element carries the data the rebuild reads from each `THREE.Mesh` in the
model group: `expressID` (`obj.userData.expressID`), an optional category id
(`obj.userData.categoryId`), the Phong material colour components and opacity.
Colours are rationals (the float values of `mat.color.r` etc.). -/

structure MeshElem where
  expressID : ℕ
  categoryId : Option ℕ
  colorR : ℚ
  colorG : ℚ
  colorB : ℚ
  opacity : ℚ
deriving DecidableEq, Repr

/-- The visibility snapshot the rebuild reads: `categoryVisibility` is the map
built from `categoriesRef.current.map(c => [c.id, c.visible])`; `storeyFilter`
is `some elementIds` when `selectedStoreyRef.current !== null`
(`storeyElementSetRef.current`), otherwise `none`. -/
structure VisibilityState where
  categoryVisibility : List (ℕ × Bool)
  storeyFilter : Option (List ℕ)
deriving DecidableEq, Repr

/-- `Number.prototype.toFixed(3)` on a rational: round to the nearest multiple
of 1/1000, ties toward the larger value (ECMA-262 toFixed), returned as the
integer numerator.  Used to quantize each colour channel for the colour key. -/
def toFixed3 (q : ℚ) : ℤ := ⌊q * 1000 + 1 / 2⌋

/-- The quantized colour key
`${r.toFixed(3)},${g.toFixed(3)},${b.toFixed(3)},${opacity}` (line 266),
modelled as the structured tuple of the three quantized channels and the raw
opacity. -/
def colorKey (m : MeshElem) : ℤ × ℤ × ℤ × ℚ :=
  (toFixed3 m.colorR, toFixed3 m.colorG, toFixed3 m.colorB, m.opacity)

/-- The storey filter test (lines 253-256): skip when a storey filter is active
and the element id is not in the storey element set. -/
def storeyPass (vs : VisibilityState) (m : MeshElem) : Bool :=
  match vs.storeyFilter with
  | none => true
  | some s => m.expressID ∈ s

/-- The category filter test (lines 258-262): skip exactly when the mesh has a
category id and `categoryVisibility.get(categoryId) === false`. -/
def categoryPass (vs : VisibilityState) (m : MeshElem) : Bool :=
  match m.categoryId with
  | none => true
  | some cid => !(vs.categoryVisibility.lookup cid == some false)

/-- A mesh survives the rebuild's two visibility checks. -/
def passesFilters (vs : VisibilityState) (m : MeshElem) : Bool :=
  storeyPass vs m && categoryPass vs m

/-- One bucket-insertion step of the `colorGroups` map (lines 268-275):
append to the existing bucket for the key, or create a new bucket at the end
(JS `Map` iterates in first-insertion order). -/
def pushElem (groups : List ((ℤ × ℤ × ℤ × ℚ) × List MeshElem))
    (k : ℤ × ℤ × ℤ × ℚ) (m : MeshElem) :
    List ((ℤ × ℤ × ℤ × ℚ) × List MeshElem) :=
  match groups with
  | [] => [(k, [m])]
  | (k', ms) :: rest =>
      if k' = k then (k', ms ++ [m]) :: rest else (k', ms) :: pushElem rest k m

/-- The `modelGroup.traverse` loop of the rebuild (lines 251-277): fold over
the model's mesh elements, skipping the ones that fail a filter chck and
pushing the rest into the bucket for their colour key. -/
def buildColorGroups (vs : VisibilityState) (elems : List MeshElem) :
    List ((ℤ × ℤ × ℤ × ℚ) × List MeshElem) :=
  elems.foldl
    (fun acc m => if passesFilters vs m then pushElem acc (colorKey m) m else acc)
    []

/-! Helper lemmas for the bucket fold. -/

/-- Keys of `pushElem`: unchanged if the key already exists, appended otherwise. -/
theorem pushElem_keys (groups : List ((ℤ × ℤ × ℤ × ℚ) × List MeshElem))
    (k : ℤ × ℤ × ℤ × ℚ) (m : MeshElem) :
    ((pushElem groups k m).map Prod.fst) =
      (if k ∈ groups.map Prod.fst then groups.map Prod.fst
       else groups.map Prod.fst ++ [k]) := by
  induction groups with
  | nil => simp [pushElem]
  | cons p rest ih =>
      obtain ⟨k', ms⟩ := p
      by_cases h : k' = k
      · subst h
        simp [pushElem]
      · simp only [pushElem, if_neg h, List.map_cons, ih]
        by_cases hk : k ∈ rest.map Prod.fst
        · simp [hk, Ne.symm h]
        · simp [hk, Ne.symm h]

/-- `pushElem` preserves distinctness of bucket keys. -/
theorem pushElem_nodup (groups : List ((ℤ × ℤ × ℤ × ℚ) × List MeshElem))
    (k : ℤ × ℤ × ℤ × ℚ) (m : MeshElem)
    (h : (groups.map Prod.fst).Nodup) :
    ((pushElem groups k m).map Prod.fst).Nodup := by
  rw [pushElem_keys]
  by_cases hk : k ∈ groups.map Prod.fst
  · simpa [hk]
  · simpa [hk, List.nodup_append] using h

/-- Every member of a `pushElem` bucket keyed `k'` either was there before or
is the new element pushed into the bucket for `k`. -/
theorem mem_pushElem (groups : List ((ℤ × ℤ × ℤ × ℚ) × List MeshElem))
    (k : ℤ × ℤ × ℤ × ℚ) (m x : MeshElem) (p : (ℤ × ℤ × ℤ × ℚ) × List MeshElem)
    (hp : p ∈ pushElem groups k m) (hx : x ∈ p.2) :
    (∃ q ∈ groups, q.1 = p.1 ∧ x ∈ q.2) ∨ (x = m ∧ p.1 = k) := by
  induction groups with
  | nil =>
      simp only [pushElem, List.mem_singleton] at hp
      subst hp
      simp only [List.mem_singleton] at hx
      exact Or.inr ⟨hx, rfl⟩
  | cons q rest ih =>
      obtain ⟨k', ms⟩ := q
      by_cases h : k' = k
      · subst h
        rw [show pushElem ((k', ms) :: rest) k' m = (k', ms ++ [m]) :: rest from by
          simp [pushElem]] at hp
        rcases List.mem_cons.mp hp with hEq | hp
        · subst hEq
          have hx' : x ∈ ms ++ [m] := hx
          rcases List.mem_append.mp hx' with hx'' | hx''
          · exact Or.inl ⟨(k', ms), List.mem_cons_self _ _, rfl, hx''⟩
          · exact Or.inr ⟨List.mem_singleton.mp hx'', rfl⟩
        · exact Or.inl ⟨p, List.mem_cons_of_mem _ hp, rfl, hx⟩
      · rw [show pushElem ((k', ms) :: rest) k m = (k', ms) :: pushElem rest k m from by
          simp [pushElem, h]] at hp
        rcases List.mem_cons.mp hp with hEq | hp
        · subst hEq
          exact Or.inl ⟨(k', ms), List.mem_cons_self _ _, rfl, hx⟩
        · rcases ih hp with ⟨q, hq, hq1, hq2⟩ | hxm
          · exact Or.inl ⟨q, List.mem_cons_of_mem _ hq, hq1, hq2⟩
          · exact Or.inr hxm

/-- The new element lands in some bucket of `pushElem`, keyed by its key. -/
theorem self_mem_pushElem (groups : List ((ℤ × ℤ × ℤ × ℚ) × List MeshElem))
    (k : ℤ × ℤ × ℤ × ℚ) (m : MeshElem) :
    ∃ p ∈ pushElem groups k m, p.1 = k ∧ m ∈ p.2 := by
  induction groups with
  | nil => exact ⟨(k, [m]), by simp [pushElem]⟩
  | cons q rest ih =>
      obtain ⟨k', ms⟩ := q
      by_cases h : k' = k
      · subst h
        exact ⟨(k', ms ++ [m]), by simp [pushElem]⟩
      · obtain ⟨p, hp, hpk, hpm⟩ := ih
        exact ⟨p, by simp [pushElem, if_neg h, hp], hpk, hpm⟩

/-- Buckets that existed before `pushElem` keep all their members. -/
theorem mem_of_mem_pushElem (groups : List ((ℤ × ℤ × ℤ × ℚ) × List MeshElem))
    (k : ℤ × ℤ × ℤ × ℚ) (m x : MeshElem) (q : (ℤ × ℤ × ℤ × ℚ) × List MeshElem)
    (hq : q ∈ groups) (hx : x ∈ q.2) :
    ∃ p ∈ pushElem groups k m, p.1 = q.1 ∧ x ∈ p.2 := by
  induction groups with
  | nil => cases hq
  | cons r rest ih =>
      obtain ⟨k', ms⟩ := r
      by_cases h : k' = k
      · subst h
        rcases List.mem_cons.mp hq with hEq | hq
        · subst hEq
          exact ⟨(k', ms ++ [m]), by simp [pushElem], rfl, by simp [hx]⟩
        · exact ⟨q, by simp [pushElem, hq], rfl, hx⟩
      · rcases List.mem_cons.mp hq with hEq | hq
        · subst hEq
          exact ⟨(k', ms), by simp [pushElem, if_neg h], rfl, hx⟩
        · obtain ⟨p, hp, hp1, hp2⟩ := ih hq
          exact ⟨p, by simp [pushElem, if_neg h, hp], hp1, hp2⟩

/-- An element sits in some bucket of the group list. -/
def inSomeBucket (groups : List ((ℤ × ℤ × ℤ × ℚ) × List MeshElem))
    (x : MeshElem) : Prop :=
  ∃ p ∈ groups, x ∈ p.2

/-- The traversal step function of the rebuild fold. -/
def rebuildStep (vs : VisibilityState)
    (acc : List ((ℤ × ℤ × ℤ × ℚ) × List MeshElem)) (m : MeshElem) :
    List ((ℤ × ℤ × ℤ × ℚ) × List MeshElem) :=
  if passesFilters vs m then pushElem acc (colorKey m) m else acc

theorem buildColorGroups_eq_foldl (vs : VisibilityState) (elems : List MeshElem) :
    buildColorGroups vs elems = elems.foldl (rebuildStep vs) [] := rfl

/-- The rebuild fold preserves distinctness of bucket keys. -/
theorem foldl_rebuildStep_nodup (vs : VisibilityState) (elems : List MeshElem)
    (acc : List ((ℤ × ℤ × ℤ × ℚ) × List MeshElem))
    (h : (acc.map Prod.fst).Nodup) :
    (((elems.foldl (rebuildStep vs) acc).map Prod.fst)).Nodup := by
  induction elems generalizing acc with
  | nil => exact h
  | cons m rest ih =>
      refine ih _ ?_
      unfold rebuildStep
      by_cases hm : passesFilters vs m
      · simpa [hm] using pushElem_nodup acc (colorKey m) m h
      · simpa [hm] using h

/-- Bucket-key invariant through the fold: every member of a bucket passed the
filters and has the bucket's colour key. -/
theorem foldl_rebuildStep_invariant (vs : VisibilityState) (elems : List MeshElem)
    (acc : List ((ℤ × ℤ × ℤ × ℚ) × List MeshElem))
    (h : ∀ p ∈ acc, ∀ x ∈ p.2, colorKey x = p.1 ∧ passesFilters vs x = true) :
    ∀ p ∈ elems.foldl (rebuildStep vs) acc, ∀ x ∈ p.2,
      colorKey x = p.1 ∧ passesFilters vs x = true := by
  induction elems generalizing acc with
  | nil => exact h
  | cons m rest ih =>
      refine ih _ ?_
      intro p hp x hx
      unfold rebuildStep at hp
      by_cases hm : passesFilters vs m
      · rw [if_pos hm] at hp
        rcases mem_pushElem acc (colorKey m) m x p hp hx with ⟨q, hq, hq1, hq2⟩ | ⟨hxm, hpk⟩
        · obtain ⟨h1, h2⟩ := h q hq x hq2
          exact ⟨hq1 ▸ h1, h2⟩
        · subst hxm
          exact ⟨hpk.symm, hm⟩
      · rw [if_neg hm] at hp
        exact h p hp x hx

/-- Membership through one push: the buckets after `pushElem` contain exactly
the old members plus the pushed element. -/
theorem inSomeBucket_pushElem (acc : List ((ℤ × ℤ × ℤ × ℚ) × List MeshElem))
    (k : ℤ × ℤ × ℤ × ℚ) (y x : MeshElem) :
    inSomeBucket (pushElem acc k y) x ↔ inSomeBucket acc x ∨ x = y := by
  constructor
  · rintro ⟨p, hp, hx⟩
    rcases mem_pushElem acc k y x p hp hx with ⟨q, hq, _, hq2⟩ | ⟨hxy, _⟩
    · exact Or.inl ⟨q, hq, hq2⟩
    · exact Or.inr hxy
  · rintro (⟨q, hq, hx⟩ | rfl)
    · obtain ⟨p, hp, _, hp2⟩ := mem_of_mem_pushElem acc k y x q hq hx
      exact ⟨p, hp, hp2⟩
    · obtain ⟨p, hp, _, hp2⟩ := self_mem_pushElem acc k x
      exact ⟨p, hp, hp2⟩

/-- Membership through the whole fold: an element is in some bucket exactly
when it was there already or occurs in the scanned list and passes the
filters. -/
theorem inSomeBucket_foldl (vs : VisibilityState) (elems : List MeshElem)
    (acc : List ((ℤ × ℤ × ℤ × ℚ) × List MeshElem)) (x : MeshElem) :
    inSomeBucket (elems.foldl (rebuildStep vs) acc) x ↔
      inSomeBucket acc x ∨ (x ∈ elems ∧ passesFilters vs x = true) := by
  induction elems generalizing acc with
  | nil => simp
  | cons m rest ih =>
      rw [List.foldl_cons, ih]
      unfold rebuildStep
      by_cases hm : passesFilters vs m
      · rw [if_pos hm, inSomeBucket_pushElem]
        constructor
        · rintro ((h | rfl) | h)
          · exact Or.inl h
          · exact Or.inr ⟨List.mem_cons_self _ _, hm⟩
          · exact Or.inr ⟨List.mem_cons_of_mem _ h.1, h.2⟩
        · rintro (h | ⟨hmem, hpass⟩)
          · exact Or.inl (Or.inl h)
          · rcases List.mem_cons.mp hmem with rfl | hmem
            · exact Or.inl (Or.inr rfl)
            · exact Or.inr ⟨hmem, hpass⟩
      · rw [if_neg hm]
        constructor
        · rintro (h | h)
          · exact Or.inl h
          · exact Or.inr ⟨List.mem_cons_of_mem _ h.1, h.2⟩
        · rintro (h | ⟨hmem, hpass⟩)
          · exact Or.inl h
          · rcases List.mem_cons.mp hmem with rfl | hmem
            · exact absurd hpass (by simpa using hm)
            · exact Or.inr ⟨hmem, hpass⟩

/-- With distinct keys and the bucket-key invariant, an element contained in
some bucket is counted exactly once over the bucket list. -/
theorem countP_eq_one_of_inSomeBucket
    (groups : List ((ℤ × ℤ × ℤ × ℚ) × List MeshElem)) (x : MeshElem)
    (hnd : (groups.map Prod.fst).Nodup)
    (hinv : ∀ p ∈ groups, ∀ y ∈ p.2, colorKey y = p.1)
    (hin : inSomeBucket groups x) :
    groups.countP (fun p => decide (x ∈ p.2)) = 1 := by
  induction groups with
  | nil => obtain ⟨p, hp, _⟩ := hin; cases hp
  | cons g rest ih =>
      rw [List.map_cons, List.nodup_cons] at hnd
      by_cases hg : x ∈ g.2
      · rw [List.countP_cons_of_pos _ _ (by simpa using hg)]
        have hrest : rest.countP (fun p => decide (x ∈ p.2)) = 0 := by
          rw [List.countP_eq_zero]
          intro p hp
          simp only [decide_eq_true_eq]
          intro hxp
          have h1 : colorKey x = p.1 :=
            hinv p (List.mem_cons_of_mem _ hp) x hxp
          have h2 : colorKey x = g.1 :=
            hinv g (List.mem_cons_self _ _) x hg
          have hgp : g.1 = p.1 := h2.symm.trans h1
          exact hnd.1 (hgp ▸ List.mem_map_of_mem Prod.fst hp)
        omega
      · rw [List.countP_cons_of_neg _ _ (by simpa using hg)]
        refine ih hnd.2 (fun p hp => hinv p (List.mem_cons_of_mem _ hp)) ?_
        obtain ⟨p, hp, hxp⟩ := hin
        rcases List.mem_cons.mp hp with rfl | hp
        · exact absurd hxp hg
        · exact ⟨p, hp, hxp⟩

/-- Core counting fact of the rebuild: each element of the model is in exactly
one bucket when it passes both filters and in none otherwise. -/
theorem buildColorGroups_countP (vs : VisibilityState) (elems : List MeshElem)
    (m : MeshElem) (hm : m ∈ elems) :
    (buildColorGroups vs elems).countP (fun p => decide (m ∈ p.2)) =
      if passesFilters vs m then 1 else 0 := by
  rw [buildColorGroups_eq_foldl]
  by_cases hp : passesFilters vs m
  · rw [if_pos hp]
    refine countP_eq_one_of_inSomeBucket _ m
      (foldl_rebuildStep_nodup vs elems [] (by simp))
      (fun p hpp y hy =>
        (foldl_rebuildStep_invariant vs elems [] (by simp) p hpp y hy).1) ?_
    exact (inSomeBucket_foldl vs elems [] m).mpr
      (Or.inr ⟨hm, hp⟩)
  · rw [if_neg hp, List.countP_eq_zero]
    intro p hpp
    simp only [decide_eq_true_eq]
    intro hxp
    exact hp (foldl_rebuildStep_invariant vs elems [] (by simp) p hpp m hxp).2

/-! ## Rebuild event ordering (`rebuildMergedMeshes`, lines 229-304)

`rebuildMergedMeshes` first runs the while loop of lines 230-239, disposing
every child of the merged group (the previous generation), and only then scans
the model and installs one merged mesh per colour bucket (lines 281-304).  The
scene-mutating events are modelled as a trace. -/

inductive RebuildEvent where
  | disposeOld (idx : ℕ)
  | installNew (key : ℤ × ℤ × ℤ × ℚ)
deriving DecidableEq, Repr

def RebuildEvent.isDispose : RebuildEvent → Bool
  | .disposeOld _ => true
  | .installNew _ => false

def RebuildEvent.isInstall : RebuildEvent → Bool
  | .disposeOld _ => false
  | .installNew _ => true

/-- The order of scene-mutating events in one call of `rebuildMergedMeshes`:
dispose each previously installed merged mesh (lines 230-239), then install
one merged mesh per non-empty colour bucket (lines 281-304). -/
def rebuildTrace (oldMeshes : List ℕ) (vs : VisibilityState)
    (elems : List MeshElem) : List RebuildEvent :=
  oldMeshes.map RebuildEvent.disposeOld ++
    (buildColorGroups vs elems).map (fun p => RebuildEvent.installNew p.1)

/-- In a concatenated trace whose tail contains no dispose events, every
dispose event sits at an index inside the first part. -/
theorem dispose_index_lt_of_append (L1 L2 : List RebuildEvent)
    (h2 : ∀ e ∈ L2, e.isDispose = false)
    (i : Fin (L1 ++ L2).length) (h : ((L1 ++ L2).get i).isDispose = true) :
    (i : ℕ) < L1.length := by
  by_contra hge
  push_neg at hge
  rw [List.get_eq_getElem, List.getElem_append_right (by simpa using hge)] at h
  have hlen : (i : ℕ) - L1.length < L2.length := by
    have := i.isLt
    simp only [List.length_append] at this
    omega
  have hf := h2 (L2.get ⟨(i : ℕ) - L1.length, hlen⟩) (List.get_mem _ _ _)
  rw [List.get_eq_getElem] at hf
  rw [hf] at h
  exact Bool.false_ne_true h

/-- In a concatenated trace whose head contains no install events, every
install event sits at an index past the first part. -/
theorem install_index_ge_of_append (L1 L2 : List RebuildEvent)
    (h1 : ∀ e ∈ L1, e.isInstall = false)
    (j : Fin (L1 ++ L2).length) (h : ((L1 ++ L2).get j).isInstall = true) :
    L1.length ≤ (j : ℕ) := by
  by_contra hlt
  push_neg at hlt
  rw [List.get_eq_getElem, List.getElem_append_left (by simpa using hlt)] at h
  have hf := h1 (L1.get ⟨(j : ℕ), hlt⟩) (List.get_mem _ _ _)
  rw [List.get_eq_getElem] at hf
  rw [hf] at h
  exact Bool.false_ne_true h

/-- C3: for every visibility state (category-visibility map plus optional
storey element set), after a rebuild every element that passes both the
category filter and the storey filter is placed in exactly one colour batch
group, and every element that fails either filter is placed in none. -/
theorem rebuild_partitions_visible_elements (vs : VisibilityState)
    (elems : List MeshElem) (m : MeshElem) (hm : m ∈ elems) :
    (passesFilters vs m = true →
      (buildColorGroups vs elems).countP (fun p => decide (m ∈ p.2)) = 1) ∧
    (passesFilters vs m = false →
      (buildColorGroups vs elems).countP (fun p => decide (m ∈ p.2)) = 0) := by
  constructor
  · intro h
    rw [buildColorGroups_countP vs elems m hm, if_pos h]
  · intro h
    rw [buildColorGroups_countP vs elems m hm, if_neg (by simp [h])]

theorem rebuild_partitions_visible_elements_witness :
    ((⟨1, some 5, 1/2, 1/4, 0, 1⟩ : MeshElem) ∈
        [(⟨1, some 5, 1/2, 1/4, 0, 1⟩ : MeshElem)]) ∧
    ((passesFilters ⟨[(5, true)], none⟩ ⟨1, some 5, 1/2, 1/4, 0, 1⟩ = true →
      (buildColorGroups ⟨[(5, true)], none⟩
          [⟨1, some 5, 1/2, 1/4, 0, 1⟩]).countP
        (fun p => decide ((⟨1, some 5, 1/2, 1/4, 0, 1⟩ : MeshElem) ∈ p.2)) = 1) ∧
    (passesFilters ⟨[(5, true)], none⟩ ⟨1, some 5, 1/2, 1/4, 0, 1⟩ = false →
      (buildColorGroups ⟨[(5, true)], none⟩
          [⟨1, some 5, 1/2, 1/4, 0, 1⟩]).countP
        (fun p => decide ((⟨1, some 5, 1/2, 1/4, 0, 1⟩ : MeshElem) ∈ p.2)) = 0)) :=
  ⟨by simp,
   rebuild_partitions_visible_elements ⟨[(5, true)], none⟩
     [⟨1, some 5, 1/2, 1/4, 0, 1⟩] ⟨1, some 5, 1/2, 1/4, 0, 1⟩ (by simp)⟩

/-- C10: in a rebuild, an element whose category id has no entry in the current
category-visibility map (category absent from the list, or category id
undefined on the mesh) is treated as visible and included in a batch group;
only an explicit `visible = false` entry for its category excludes it. -/
theorem rebuild_missing_category_defaults_visible (vs : VisibilityState)
    (elems : List MeshElem) (m : MeshElem) (hm : m ∈ elems)
    (hst : storeyPass vs m = true) :
    ((m.categoryId = none ∨ ∃ cid, m.categoryId = some cid ∧
        vs.categoryVisibility.lookup cid ≠ some false) →
      (buildColorGroups vs elems).countP (fun p => decide (m ∈ p.2)) = 1) ∧
    (∀ cid, m.categoryId = some cid →
      vs.categoryVisibility.lookup cid = some false →
      (buildColorGroups vs elems).countP (fun p => decide (m ∈ p.2)) = 0) := by
  have hcount := buildColorGroups_countP vs elems m hm
  constructor
  · intro hcat
    have hpass : passesFilters vs m = true := by
      unfold passesFilters categoryPass
      rcases hcat with hnone | ⟨cid, hcid, hlk⟩
      · simp [hst, hnone]
      · simp [hst, hcid, hlk]
    rw [hcount, if_pos hpass]
  · intro cid hcid hlk
    have hpass : passesFilters vs m = false := by
      unfold passesFilters categoryPass
      simp [hcid, hlk]
    rw [hcount, if_neg (by simp [hpass])]

theorem rebuild_missing_category_defaults_visible_witness :
    ((⟨2, some 7, 0, 0, 0, 1⟩ : MeshElem) ∈
        [(⟨2, some 7, 0, 0, 0, 1⟩ : MeshElem)]) ∧
    (storeyPass ⟨[(5, false)], none⟩ ⟨2, some 7, 0, 0, 0, 1⟩ = true) ∧
    ((((⟨2, some 7, 0, 0, 0, 1⟩ : MeshElem).categoryId = none ∨
        ∃ cid, (⟨2, some 7, 0, 0, 0, 1⟩ : MeshElem).categoryId = some cid ∧
          (⟨[(5, false)], none⟩ : VisibilityState).categoryVisibility.lookup cid ≠
            some false) →
      (buildColorGroups ⟨[(5, false)], none⟩
          [⟨2, some 7, 0, 0, 0, 1⟩]).countP
        (fun p => decide ((⟨2, some 7, 0, 0, 0, 1⟩ : MeshElem) ∈ p.2)) = 1) ∧
    (∀ cid, (⟨2, some 7, 0, 0, 0, 1⟩ : MeshElem).categoryId = some cid →
      (⟨[(5, false)], none⟩ : VisibilityState).categoryVisibility.lookup cid =
        some false →
      (buildColorGroups ⟨[(5, false)], none⟩
          [⟨2, some 7, 0, 0, 0, 1⟩]).countP
        (fun p => decide ((⟨2, some 7, 0, 0, 0, 1⟩ : MeshElem) ∈ p.2)) = 0)) :=
  ⟨by simp, by decide,
   rebuild_missing_category_defaults_visible ⟨[(5, false)], none⟩
     [⟨2, some 7, 0, 0, 0, 1⟩] ⟨2, some 7, 0, 0, 0, 1⟩ (by simp) (by decide)⟩

/-- C4 (counterexample): with one previously installed merged mesh and one
visible element, the rebuild trace disposes the old mesh at index 0, before the
new batch is installed at index 1 — the claimed order (old disposed only after
the new set is installed) fails on the code, which clears the merged group
before rebuilding. -/
theorem rebuild_dispose_first_counterexample :
    ¬ (∀ i j : Fin (rebuildTrace [0] ⟨[], none⟩ [⟨1, none, 0, 0, 0, 1⟩]).length,
        ((rebuildTrace [0] ⟨[], none⟩ [⟨1, none, 0, 0, 0, 1⟩]).get i).isDispose =
          true →
        ((rebuildTrace [0] ⟨[], none⟩ [⟨1, none, 0, 0, 0, 1⟩]).get j).isInstall =
          true →
        (j : ℕ) < (i : ℕ)) := by
  decide

/-- C4 (amended): on every rebuild the previous generation's merged meshes are
all disposed first, before any batch of the new set is built and installed —
the code clears the merged group up front (dispose-then-create), the reverse of
the create-then-dispose order the claim states. -/
theorem rebuild_disposes_before_installing (old : List ℕ) (vs : VisibilityState)
    (elems : List MeshElem) (i j : Fin (rebuildTrace old vs elems).length)
    (hi : ((rebuildTrace old vs elems).get i).isDispose = true)
    (hj : ((rebuildTrace old vs elems).get j).isInstall = true) :
    (i : ℕ) < (j : ℕ) := by
  have hf2 : ∀ e ∈ (buildColorGroups vs elems).map
      (fun p => RebuildEvent.installNew p.1), RebuildEvent.isDispose e = false := by
    intro e he
    obtain ⟨p, _, rfl⟩ := List.mem_map.mp he
    rfl
  have hf1 : ∀ e ∈ old.map RebuildEvent.disposeOld,
      RebuildEvent.isInstall e = false := by
    intro e he
    obtain ⟨n, _, rfl⟩ := List.mem_map.mp he
    rfl
  have h1 : (i : ℕ) < (old.map RebuildEvent.disposeOld).length :=
    dispose_index_lt_of_append _ _ hf2 i hi
  have h2 : (old.map RebuildEvent.disposeOld).length ≤ (j : ℕ) :=
    install_index_ge_of_append _ _ hf1 j hj
  omega

theorem rebuild_disposes_before_installing_witness :
    (((rebuildTrace [0] ⟨[], none⟩
        [⟨1, none, 0, 0, 0, 1⟩]).get ⟨0, by decide⟩).isDispose = true) ∧
    (((rebuildTrace [0] ⟨[], none⟩
        [⟨1, none, 0, 0, 0, 1⟩]).get ⟨1, by decide⟩).isInstall = true) ∧
    ((0 : ℕ) < (1 : ℕ)) :=
  ⟨by decide, by decide,
   rebuild_disposes_before_installing [0] ⟨[], none⟩ [⟨1, none, 0, 0, 0, 1⟩]
     ⟨0, by decide⟩ ⟨1, by decide⟩ (by decide) (by decide)⟩

/-! ## Orbit camera controller (`handleMouseMove` / `handleWheel`,
IFCViewer.tsx lines 1590-1647)

The spherical camera state `{radius, theta, phi}` (`sphericalRef`). -/

structure SphericalState where
  radius : ℝ
  theta : ℝ
  phi : ℝ

/-- `handleWheel` (lines 1635-1647): multiply or divide the radius by the zoom
speed 1.02 depending on the wheel direction, clamped to
`[modelSize * 0.1, modelSize * 10]`. -/
noncomputable def handleWheel (modelSize : ℝ) (s : SphericalState)
    (deltaY : ℝ) : SphericalState :=
  let zoomSpeed : ℝ := 1.02
  let minDistance := modelSize * 0.1
  let maxDistance := modelSize * 10
  if deltaY > 0 then
    { s with radius := min maxDistance (s.radius * zoomSpeed) }
  else
    { s with radius := max minDistance (s.radius / zoomSpeed) }

/-- The rotate branch of `handleMouseMove` (lines 1625-1630):
`theta += deltaX * 0.01` and `phi` clamped to `[0.1, π/2 - 0.1]`. -/
noncomputable def handleMouseMoveRotate (s : SphericalState)
    (deltaX deltaY : ℝ) : SphericalState :=
  { s with
    theta := s.theta + deltaX * 0.01,
    phi := max 0.1 (min (Real.pi / 2 - 0.1) (s.phi - deltaY * 0.01)) }

/-- One wheel step keeps the radius inside the clamp band. -/
theorem handleWheel_radius_mem (modelSize : ℝ) (hms : 0 ≤ modelSize)
    (s : SphericalState) (deltaY : ℝ)
    (hr : s.radius ∈ Set.Icc (modelSize * 0.1) (modelSize * 10)) :
    (handleWheel modelSize s deltaY).radius ∈
      Set.Icc (modelSize * 0.1) (modelSize * 10) := by
  obtain ⟨hlo, hhi⟩ := hr
  have hr0 : 0 ≤ s.radius := le_trans (by nlinarith) hlo
  unfold handleWheel
  by_cases hd : deltaY > 0
  · rw [if_pos hd]
    constructor
    · exact le_min (by nlinarith) (by nlinarith)
    · exact min_le_left _ _
  · rw [if_neg hd]
    constructor
    · exact le_max_left _ _
    · refine max_le (by nlinarith) ?_
      calc s.radius / 1.02 ≤ s.radius := by
              refine div_le_self hr0 (by norm_num)
        _ ≤ modelSize * 10 := hhi

/-- One rotate step always lands phi inside the clamp band. -/
theorem handleMouseMoveRotate_phi_mem (s : SphericalState) (dx dy : ℝ) :
    (handleMouseMoveRotate s dx dy).phi ∈
      Set.Icc (0.1 : ℝ) (Real.pi / 2 - 0.1) := by
  have hpi : (3 : ℝ) < Real.pi := Real.pi_gt_three
  constructor
  · exact le_max_left _ _
  · exact max_le (by nlinarith) (min_le_left _ _)

/-- C6 (counterexample): with modelSize 1 and an initial state whose phi = 1
lies strictly inside the band, a single orbit step with deltaY = 100 clamps
phi to exactly 0.1 = ε, which is not inside the open interval
(ε, π/2 − ε) the claim states — the clamp attains its endpoints. -/
theorem camera_phi_open_interval_counterexample :
    ((⟨1, 0, 1⟩ : SphericalState).phi ∈
        Set.Ioo (0.1 : ℝ) (Real.pi / 2 - 0.1)) ∧
    (handleMouseMoveRotate ⟨1, 0, 1⟩ 0 100).phi = 0.1 ∧
    (handleMouseMoveRotate ⟨1, 0, 1⟩ 0 100).phi ∉
      Set.Ioo (0.1 : ℝ) (Real.pi / 2 - 0.1) := by
  have hpi : (3 : ℝ) < Real.pi := Real.pi_gt_three
  have hval : (handleMouseMoveRotate ⟨1, 0, 1⟩ 0 100).phi = 0.1 := by
    show max 0.1 (min (Real.pi / 2 - 0.1) ((1 : ℝ) - 100 * 0.01)) = 0.1
    rw [show (1 : ℝ) - 100 * 0.01 = 0 by norm_num]
    rw [min_eq_right (by nlinarith)]
    exact max_eq_left (by norm_num)
  refine ⟨⟨by norm_num, by nlinarith⟩, hval, ?_⟩
  rw [hval]
  rintro ⟨h, -⟩
  exact lt_irrefl _ h

/-- C6 (amended): for a fixed nonnegative modelSize, starting with radius in
the closed band [0.1·modelSize, 10·modelSize], any sequence of zoom steps keeps
the radius in that band, and starting with phi in the closed band
[ε, π/2 − ε] (ε = 0.1), any sequence of orbit steps keeps phi in that band
(the clamps attain their endpoints, so the bands are closed, not open). -/
theorem camera_clamp_invariant (modelSize : ℝ) (hms : 0 ≤ modelSize)
    (s : SphericalState) (deltas : List ℝ) (moves : List (ℝ × ℝ))
    (hr : s.radius ∈ Set.Icc (modelSize * 0.1) (modelSize * 10))
    (hphi : s.phi ∈ Set.Icc (0.1 : ℝ) (Real.pi / 2 - 0.1)) :
    ((deltas.foldl (handleWheel modelSize) s).radius ∈
        Set.Icc (modelSize * 0.1) (modelSize * 10)) ∧
    ((moves.foldl (fun st d => handleMouseMoveRotate st d.1 d.2) s).phi ∈
        Set.Icc (0.1 : ℝ) (Real.pi / 2 - 0.1)) := by
  constructor
  · clear hphi
    induction deltas generalizing s with
    | nil => exact hr
    | cons d rest ih =>
        exact ih _ (handleWheel_radius_mem modelSize hms s d hr)
  · clear hr
    induction moves generalizing s with
    | nil => exact hphi
    | cons d rest ih =>
        exact ih _ (handleMouseMoveRotate_phi_mem s d.1 d.2)

theorem camera_clamp_invariant_witness :
    ((0 : ℝ) ≤ 1) ∧
    ((⟨1, 0, 1⟩ : SphericalState).radius ∈
        Set.Icc ((1 : ℝ) * 0.1) ((1 : ℝ) * 10)) ∧
    ((⟨1, 0, 1⟩ : SphericalState).phi ∈
        Set.Icc (0.1 : ℝ) (Real.pi / 2 - 0.1)) ∧
    ((([(1 : ℝ)]).foldl (handleWheel 1) ⟨1, 0, 1⟩).radius ∈
        Set.Icc ((1 : ℝ) * 0.1) ((1 : ℝ) * 10)) ∧
    ((([((0 : ℝ), (0 : ℝ))]).foldl
        (fun st d => handleMouseMoveRotate st d.1 d.2) ⟨1, 0, 1⟩).phi ∈
        Set.Icc (0.1 : ℝ) (Real.pi / 2 - 0.1)) := by
  have hms : (0 : ℝ) ≤ 1 := by norm_num
  have hr : ((⟨1, 0, 1⟩ : SphericalState)).radius ∈
      Set.Icc ((1 : ℝ) * 0.1) ((1 : ℝ) * 10) := by
    constructor <;> norm_num
  have hphi : ((⟨1, 0, 1⟩ : SphericalState)).phi ∈
      Set.Icc (0.1 : ℝ) (Real.pi / 2 - 0.1) := by
    have hpi : (3 : ℝ) < Real.pi := Real.pi_gt_three
    constructor
    · norm_num
    · show (1 : ℝ) ≤ Real.pi / 2 - 0.1
      nlinarith
  obtain ⟨h1, h2⟩ :=
    camera_clamp_invariant 1 hms ⟨1, 0, 1⟩ [(1 : ℝ)] [((0 : ℝ), (0 : ℝ))] hr hphi
  exact ⟨hms, hr, hphi, h1, h2⟩

/-! ## Click/drag disambiguation (`handleMouseDown` / `handleMouseMove` /
`handleClick`, IFCViewer.tsx lines 1572-1600 and 1673-1681) -/

structure GestureState where
  isDragging : Bool
  lastX : ℤ
  lastY : ℤ
deriving DecidableEq, Repr

/-- One `handleMouseMove` step of the classification state (lines 1590-1600):
deltas are taken against the last recorded mouse position, the position is
updated, and the dragging flag is set when a single move exceeds 2 pixels in
either axis (the flag is never reset during the gesture). -/
def moveStep (g : GestureState) (pos : ℤ × ℤ) : GestureState :=
  { isDragging := g.isDragging ||
      (decide (2 < |pos.1 - g.lastX|) || decide (2 < |pos.2 - g.lastY|)),
    lastX := pos.1, lastY := pos.2 }

/-- A pointer-down at `start` (which resets the dragging flag, line 1581)
followed by the given mousemove positions; the gesture is classified as a
click when the click handler's dragging check (line 1678) passes. -/
def classifiedAsClick (start : ℤ × ℤ) (moves : List (ℤ × ℤ)) : Bool :=
  !((moves.foldl moveStep ⟨false, start.1, start.2⟩).isDragging)

/-- Consecutive pointer deltas of a gesture. -/
def gestureDeltas (last : ℤ × ℤ) : List (ℤ × ℤ) → List (ℤ × ℤ)
  | [] => []
  | p :: ps => (p.1 - last.1, p.2 - last.2) :: gestureDeltas p ps

/-- Cumulative pointer movement over the whole gesture: the sum of the
per-move displacement magnitudes. -/
def cumulativeMovement (start : ℤ × ℤ) (moves : List (ℤ × ℤ)) : ℤ :=
  ((gestureDeltas start moves).map (fun d => max |d.1| |d.2|)).sum

/-- The dragging flag after a gesture is the disjunction over single-move
threshold tests. -/
theorem foldl_moveStep_isDragging (moves : List (ℤ × ℤ)) (b : Bool)
    (x y : ℤ) :
    (moves.foldl moveStep ⟨b, x, y⟩).isDragging =
      (b || (gestureDeltas (x, y) moves).any
        (fun d => decide (2 < |d.1|) || decide (2 < |d.2|))) := by
  induction moves generalizing b x y with
  | nil => simp [gestureDeltas]
  | cons p ps ih =>
      rw [List.foldl_cons]
      show ((ps.foldl moveStep
        ⟨b || (decide (2 < |p.1 - x|) || decide (2 < |p.2 - y|)), p.1, p.2⟩).isDragging) = _
      rw [ih]
      simp [gestureDeltas, Bool.or_assoc]

/-- C7 (counterexample): a gesture of two moves of 2 px each has cumulative
movement 4, above the 2 px threshold, yet the code classifies it as a click
because no single move exceeded the threshold — the classification is
per-move, not cumulative. -/
theorem click_despite_cumulative_movement :
    classifiedAsClick (0, 0) [(2, 0), (4, 0)] = true ∧
    2 < cumulativeMovement (0, 0) [(2, 0), (4, 0)] := by
  decide

/-- C7 (amended): a gesture is classified as a click exactly when every single
pointer-move delta stays within the 2 px threshold in both axes (so a slow
many-step drag whose cumulative movement exceeds the threshold is still a
click); the classification is a monotone flag set during moves and read once
at pointer-up. -/
theorem click_iff_every_move_below_threshold (start : ℤ × ℤ)
    (moves : List (ℤ × ℤ)) :
    classifiedAsClick start moves = true ↔
      ∀ d ∈ gestureDeltas start moves, |d.1| ≤ 2 ∧ |d.2| ≤ 2 := by
  unfold classifiedAsClick
  rw [foldl_moveStep_isDragging]
  simp only [Bool.false_or]
  constructor
  · intro h d hd
    have hfalse : (gestureDeltas (start.1, start.2) moves).any
        (fun d => decide (2 < |d.1|) || decide (2 < |d.2|)) = false := by
      cases hcase : (gestureDeltas (start.1, start.2) moves).any
          (fun d => decide (2 < |d.1|) || decide (2 < |d.2|)) with
      | false => rfl
      | true => rw [hcase] at h; exact absurd h (by decide)
    have hres := (List.any_eq_false).mp hfalse d hd
    simp only [Bool.or_eq_true, decide_eq_true_eq, not_or, not_lt] at hres
    exact hres
  · intro h
    have hfalse : (gestureDeltas (start.1, start.2) moves).any
        (fun d => decide (2 < |d.1|) || decide (2 < |d.2|)) = false := by
      rw [List.any_eq_false]
      intro d hd
      have hres := h d hd
      simp only [Bool.or_eq_true, decide_eq_true_eq, not_or, not_lt]
      exact hres
    rw [hfalse]
    rfl

/-! ## Alignment solver (`applyAlignment`, IFCViewer.tsx lines 917-1110)

The planar solve works on the (x, z) coordinates of the two model points
(`pA`, `pB`) and the two drawing points (`pT1`, `pT2`); the points are pairs
of reals below. -/

/-- `Math.atan2 y x`, the argument of the complex number `x + y i`
(range (−π, π], `atan2 0 0 = 0`). -/
noncomputable def atan2 (y x : ℝ) : ℝ := Complex.arg ⟨x, y⟩

/-- Centroid of the two model points (lines 949-952). -/
noncomputable def mCentroid (A B : ℝ × ℝ) : ℝ × ℝ := ((A.1 + B.1) / 2, (A.2 + B.2) / 2)

/-- Centroid of the two drawing points (lines 953-956). -/
noncomputable def dCentroid (T1 T2 : ℝ × ℝ) : ℝ × ℝ := ((T1.1 + T2.1) / 2, (T1.2 + T2.2) / 2)

/-- `M_sumSq` (line 963): sum of squares of the centred model points. -/
noncomputable def mSumSq (A B : ℝ × ℝ) : ℝ :=
  (A.1 - (mCentroid A B).1) ^ 2 + (A.2 - (mCentroid A B).2) ^ 2 +
    (B.1 - (mCentroid A B).1) ^ 2 + (B.2 - (mCentroid A B).2) ^ 2

/-- `D_sumSq` (line 964): sum of squares of the centred drawing points. -/
noncomputable def dSumSq (T1 T2 : ℝ × ℝ) : ℝ :=
  (T1.1 - (dCentroid T1 T2).1) ^ 2 + (T1.2 - (dCentroid T1 T2).2) ^ 2 +
    (T2.1 - (dCentroid T1 T2).1) ^ 2 + (T2.2 - (dCentroid T1 T2).2) ^ 2

/-- `M_scale = sqrt(M_sumSq / 2)` (line 965). -/
noncomputable def mScale (A B : ℝ × ℝ) : ℝ := Real.sqrt (mSumSq A B / 2)

/-- `D_scale = sqrt(D_sumSq / 2)` (line 966). -/
noncomputable def dScale (T1 T2 : ℝ × ℝ) : ℝ := Real.sqrt (dSumSq T1 T2 / 2)

/-- `scale = D_scale / M_scale` (line 973). -/
noncomputable def solveScale (A B T1 T2 : ℝ × ℝ) : ℝ := dScale T1 T2 / mScale A B

/-- `dotSum` (lines 983-987): dot products of the scaled centred model points
against the centred drawing points. -/
noncomputable def dotSum (A B T1 T2 : ℝ × ℝ) : ℝ :=
  solveScale A B T1 T2 * (A.1 - (mCentroid A B).1) * (T1.1 - (dCentroid T1 T2).1) +
    solveScale A B T1 T2 * (A.2 - (mCentroid A B).2) * (T1.2 - (dCentroid T1 T2).2) +
    (solveScale A B T1 T2 * (B.1 - (mCentroid A B).1) * (T2.1 - (dCentroid T1 T2).1) +
      solveScale A B T1 T2 * (B.2 - (mCentroid A B).2) * (T2.2 - (dCentroid T1 T2).2))

/-- `crossSum` (lines 983-987): cross products of the scaled centred model
points against the centred drawing points. -/
noncomputable def crossSum (A B T1 T2 : ℝ × ℝ) : ℝ :=
  solveScale A B T1 T2 * (A.1 - (mCentroid A B).1) * (T1.2 - (dCentroid T1 T2).2) -
    solveScale A B T1 T2 * (A.2 - (mCentroid A B).2) * (T1.1 - (dCentroid T1 T2).1) +
    (solveScale A B T1 T2 * (B.1 - (mCentroid A B).1) * (T2.2 - (dCentroid T1 T2).2) -
      solveScale A B T1 T2 * (B.2 - (mCentroid A B).2) * (T2.1 - (dCentroid T1 T2).1))

/-- `angle = atan2(crossSum, dotSum)` (line 989). -/
noncomputable def solveAngle (A B T1 T2 : ℝ × ℝ) : ℝ :=
  atan2 (crossSum A B T1 T2) (dotSum A B T1 T2)

/-- `tx = D_centroid[0] - scale * (cos*Mx - sin*Mz)` (lines 999-1003). -/
noncomputable def solveTx (A B T1 T2 : ℝ × ℝ) : ℝ :=
  (dCentroid T1 T2).1 -
    solveScale A B T1 T2 *
      (Real.cos (solveAngle A B T1 T2) * (mCentroid A B).1 -
        Real.sin (solveAngle A B T1 T2) * (mCentroid A B).2)

/-- `tz = D_centroid[1] - scale * (sin*Mx + cos*Mz)` (lines 999-1004). -/
noncomputable def solveTz (A B T1 T2 : ℝ × ℝ) : ℝ :=
  (dCentroid T1 T2).2 -
    solveScale A B T1 T2 *
      (Real.sin (solveAngle A B T1 T2) * (mCentroid A B).1 +
        Real.cos (solveAngle A B T1 T2) * (mCentroid A B).2)

/-- The solver's own verification transform (lines 1010-1013):
`p -> scale * R(angle) @ p + (tx, tz)` with the 2-D rotation convention
`[cos, -sin; sin, cos]` on (x, z). -/
noncomputable def verifyTransform (A B T1 T2 : ℝ × ℝ) (p : ℝ × ℝ) : ℝ × ℝ :=
  (solveScale A B T1 T2 *
      (Real.cos (solveAngle A B T1 T2) * p.1 -
        Real.sin (solveAngle A B T1 T2) * p.2) + solveTx A B T1 T2,
   solveScale A B T1 T2 *
      (Real.sin (solveAngle A B T1 T2) * p.1 +
        Real.cos (solveAngle A B T1 T2) * p.2) + solveTz A B T1 T2)

/-! The 4×4 matrix pipeline (lines 1029-1066), with the element layout and
operations of `THREE.Matrix4` (row-major element names n11..n44, column-vector
point application). -/

structure Mat4 where
  n11 : ℝ
  n12 : ℝ
  n13 : ℝ
  n14 : ℝ
  n21 : ℝ
  n22 : ℝ
  n23 : ℝ
  n24 : ℝ
  n31 : ℝ
  n32 : ℝ
  n33 : ℝ
  n34 : ℝ
  n41 : ℝ
  n42 : ℝ
  n43 : ℝ
  n44 : ℝ

/-- `Matrix4.multiplyMatrices(a, b)`. -/
noncomputable def Mat4.mul (a b : Mat4) : Mat4 where
  n11 := a.n11 * b.n11 + a.n12 * b.n21 + a.n13 * b.n31 + a.n14 * b.n41
  n12 := a.n11 * b.n12 + a.n12 * b.n22 + a.n13 * b.n32 + a.n14 * b.n42
  n13 := a.n11 * b.n13 + a.n12 * b.n23 + a.n13 * b.n33 + a.n14 * b.n43
  n14 := a.n11 * b.n14 + a.n12 * b.n24 + a.n13 * b.n34 + a.n14 * b.n44
  n21 := a.n21 * b.n11 + a.n22 * b.n21 + a.n23 * b.n31 + a.n24 * b.n41
  n22 := a.n21 * b.n12 + a.n22 * b.n22 + a.n23 * b.n32 + a.n24 * b.n42
  n23 := a.n21 * b.n13 + a.n22 * b.n23 + a.n23 * b.n33 + a.n24 * b.n43
  n24 := a.n21 * b.n14 + a.n22 * b.n24 + a.n23 * b.n34 + a.n24 * b.n44
  n31 := a.n31 * b.n11 + a.n32 * b.n21 + a.n33 * b.n31 + a.n34 * b.n41
  n32 := a.n31 * b.n12 + a.n32 * b.n22 + a.n33 * b.n32 + a.n34 * b.n42
  n33 := a.n31 * b.n13 + a.n32 * b.n23 + a.n33 * b.n33 + a.n34 * b.n43
  n34 := a.n31 * b.n14 + a.n32 * b.n24 + a.n33 * b.n34 + a.n34 * b.n44
  n41 := a.n41 * b.n11 + a.n42 * b.n21 + a.n43 * b.n31 + a.n44 * b.n41
  n42 := a.n41 * b.n12 + a.n42 * b.n22 + a.n43 * b.n32 + a.n44 * b.n42
  n43 := a.n41 * b.n13 + a.n42 * b.n23 + a.n43 * b.n33 + a.n44 * b.n43
  n44 := a.n41 * b.n14 + a.n42 * b.n24 + a.n43 * b.n34 + a.n44 * b.n44

/-- `Matrix4.makeScale(s, s, s)` (line 1032). -/
noncomputable def makeScale (s : ℝ) : Mat4 :=
  ⟨s, 0, 0, 0, 0, s, 0, 0, 0, 0, s, 0, 0, 0, 0, 1⟩

/-- `Matrix4.makeRotationY(θ)` (line 1033). -/
noncomputable def makeRotationY (θ : ℝ) : Mat4 :=
  ⟨Real.cos θ, 0, Real.sin θ, 0,
   0, 1, 0, 0,
   -Real.sin θ, 0, Real.cos θ, 0,
   0, 0, 0, 1⟩

/-- `Matrix4.makeTranslation(x, y, z)` (line 1034). -/
noncomputable def makeTranslation (x y z : ℝ) : Mat4 :=
  ⟨1, 0, 0, x, 0, 1, 0, y, 0, 0, 1, z, 0, 0, 0, 1⟩

/-- `Vector3.applyMatrix4`: homogeneous column-vector application with the
perspective divide. -/
noncomputable def applyMatrixPoint (m : Mat4) (p : ℝ × ℝ × ℝ) : ℝ × ℝ × ℝ :=
  ((m.n11 * p.1 + m.n12 * p.2.1 + m.n13 * p.2.2 + m.n14) /
      (m.n41 * p.1 + m.n42 * p.2.1 + m.n43 * p.2.2 + m.n44),
   (m.n21 * p.1 + m.n22 * p.2.1 + m.n23 * p.2.2 + m.n24) /
      (m.n41 * p.1 + m.n42 * p.2.1 + m.n43 * p.2.2 + m.n44),
   (m.n31 * p.1 + m.n32 * p.2.1 + m.n33 * p.2.2 + m.n34) /
      (m.n41 * p.1 + m.n42 * p.2.1 + m.n43 * p.2.2 + m.n44))

/-- The alignment matrix `T * R * S` built at lines 1029-1038:
`alignMatrix.multiplyMatrices(translationMatrix, rotationMatrix)` followed by
`alignMatrix.multiply(scaleMatrix)`. -/
noncomputable def alignMatrix (A B T1 T2 : ℝ × ℝ) : Mat4 :=
  Mat4.mul
    (Mat4.mul (makeTranslation (solveTx A B T1 T2) 0 (solveTz A B T1 T2))
      (makeRotationY (solveAngle A B T1 T2)))
    (makeScale (solveScale A B T1 T2))

/-- The transform the code actually applies to a world point of the model:
the composed align matrix acting on the point. -/
noncomputable def appliedAlignPoint (A B T1 T2 : ℝ × ℝ) (p : ℝ × ℝ × ℝ) :
    ℝ × ℝ × ℝ :=
  applyMatrixPoint (alignMatrix A B T1 T2) p

/-- Closed form of the applied T·RotY·S transform on a point: uniform scale,
then the Y-axis rotation `x ↦ cos·x + sin·z, z ↦ −sin·x + cos·z`, then the
translation. -/
theorem applyMatrixPoint_TRS (tx ty tz θ sc : ℝ) (p : ℝ × ℝ × ℝ) :
    applyMatrixPoint
        (Mat4.mul (Mat4.mul (makeTranslation tx ty tz) (makeRotationY θ))
          (makeScale sc)) p =
      (sc * (Real.cos θ * p.1 + Real.sin θ * p.2.2) + tx,
       sc * p.2.1 + ty,
       sc * (-(Real.sin θ) * p.1 + Real.cos θ * p.2.2) + tz) := by
  obtain ⟨x, y, z⟩ := p
  simp only [applyMatrixPoint, Mat4.mul, makeTranslation, makeRotationY, makeScale]
  norm_num
  constructor
  · ring
  · ring

/-- C1 (code bug): at the spec's example pA=(0,0), pB=(10,0), pT1=(0,0),
pT2=(0,10), the planar solve returns scale 1 and rotation +90°, and the
solver's own verification transform (2-D convention `[cos, −sin; sin, cos]`)
maps pA to pT1 and pB to pT2 exactly; but the matrix the code actually applies
to the model (`T · makeRotationY(angle) · S`, whose action on (x, z) is
`[cos, sin; −sin, cos]`, the opposite orientation) sends pB = (10, 0, 0) to
(0, 0, −10) instead of z = +10 — the applied transform does not reproduce the
target points. -/
theorem alignment_example_applied_transform_mismatch :
    solveScale (0, 0) (10, 0) (0, 0) (0, 10) = 1 ∧
    solveAngle (0, 0) (10, 0) (0, 0) (0, 10) = Real.pi / 2 ∧
    verifyTransform (0, 0) (10, 0) (0, 0) (0, 10) (0, 0) = (0, 0) ∧
    verifyTransform (0, 0) (10, 0) (0, 0) (0, 10) (10, 0) = (0, 10) ∧
    appliedAlignPoint (0, 0) (10, 0) (0, 0) (0, 10) (10, 0, 0) = (0, 0, -10) ∧
    (-10 : ℝ) ≠ 10 := by
  have hmc : mCentroid (0, 0) (10, 0) = (5, 0) := by
    unfold mCentroid
    norm_num
  have hdc : dCentroid (0, 0) (0, 10) = (0, 5) := by
    unfold dCentroid
    norm_num
  have hmsum : mSumSq (0, 0) (10, 0) = 50 := by
    unfold mSumSq mCentroid
    norm_num
  have hdsum : dSumSq (0, 0) (0, 10) = 50 := by
    unfold dSumSq dCentroid
    norm_num
  have hms : mScale (0, 0) (10, 0) = 5 := by
    unfold mScale
    rw [hmsum, show (50 : ℝ) / 2 = 5 ^ 2 by norm_num]
    exact Real.sqrt_sq (by norm_num)
  have hds : dScale (0, 0) (0, 10) = 5 := by
    unfold dScale
    rw [hdsum, show (50 : ℝ) / 2 = 5 ^ 2 by norm_num]
    exact Real.sqrt_sq (by norm_num)
  have hsc : solveScale (0, 0) (10, 0) (0, 0) (0, 10) = 1 := by
    unfold solveScale
    rw [hms, hds]
    norm_num
  have hdot : dotSum (0, 0) (10, 0) (0, 0) (0, 10) = 0 := by
    unfold dotSum
    rw [hsc, hmc, hdc]
    norm_num
  have hcross : crossSum (0, 0) (10, 0) (0, 0) (0, 10) = 50 := by
    unfold crossSum
    rw [hsc, hmc, hdc]
    norm_num
  have hang : solveAngle (0, 0) (10, 0) (0, 0) (0, 10) = Real.pi / 2 := by
    unfold solveAngle
    rw [hcross, hdot]
    unfold atan2
    rw [Complex.arg_eq_pi_div_two_iff]
    refine ⟨rfl, ?_⟩
    show (0 : ℝ) < 50
    norm_num
  have hcos : Real.cos (solveAngle (0, 0) (10, 0) (0, 0) (0, 10)) = 0 := by
    rw [hang]
    exact Real.cos_pi_div_two
  have hsin : Real.sin (solveAngle (0, 0) (10, 0) (0, 0) (0, 10)) = 1 := by
    rw [hang]
    exact Real.sin_pi_div_two
  have htx : solveTx (0, 0) (10, 0) (0, 0) (0, 10) = 0 := by
    unfold solveTx
    rw [hsc, hcos, hsin, hmc, hdc]
    norm_num
  have htz : solveTz (0, 0) (10, 0) (0, 0) (0, 10) = 0 := by
    unfold solveTz
    rw [hsc, hcos, hsin, hmc, hdc]
    norm_num
  refine ⟨hsc, hang, ?_, ?_, ?_, by norm_num⟩
  · unfold verifyTransform
    rw [hsc, hcos, hsin, htx, htz]
    norm_num
  · unfold verifyTransform
    rw [hsc, hcos, hsin, htx, htz]
    norm_num
  · unfold appliedAlignPoint alignMatrix
    rw [applyMatrixPoint_TRS, hsc, hcos, hsin, htx, htz]
    norm_num

/-! ## Alignment as a state transformation (lines 917-1110)

The model group's stored world transform, together with the pre-alignment
reference transform `originalTransformRef` (set once at model load, line 2037,
and never written by `applyAlignment`). -/

structure ModelPose where
  current : Mat4
  original : Mat4

inductive AlignOutcome where
  | degenerate
  | applied
deriving DecidableEq, Repr

/-- The whole `applyAlignment` call as a state transformation: reset the model
to the original transform (lines 926-933), reject when `M_scale === 0`
(lines 968-971), otherwise left-multiply the align matrix onto the reset world
matrix (lines 1040-1066) and raise the y position so the model sits on the
drawing (lines 1073-1078; `minY` abstracts the bounding-box minimum of the
model's geometry under a world transform, `drawingY` the drawing plane's
height, and 0.01 the lift epsilon). -/
noncomputable def applyAlignmentState (minY : Mat4 → ℝ) (drawingY : ℝ)
    (st : ModelPose) (A B T1 T2 : ℝ × ℝ) : ModelPose × AlignOutcome :=
  let reset : ModelPose := { st with current := st.original }
  if mScale A B = 0 then (reset, AlignOutcome.degenerate)
  else
    let N := Mat4.mul (alignMatrix A B T1 T2) reset.current
    let yOff := drawingY - minY N + 0.01
    ({ reset with current := { N with n24 := N.n24 + yOff } },
     AlignOutcome.applied)

/-- C5: invoking the alignment solve twice in succession with the same four
points yields the same final model transform as invoking it once — each solve
first resets the model to the pre-alignment reference transform and computes
only from it and the four points, so repeated solves do not compound. -/
theorem alignment_solve_idempotent (minY : Mat4 → ℝ) (drawingY : ℝ)
    (st : ModelPose) (A B T1 T2 : ℝ × ℝ) :
    applyAlignmentState minY drawingY
        (applyAlignmentState minY drawingY st A B T1 T2).1 A B T1 T2 =
      applyAlignmentState minY drawingY st A B T1 T2 := by
  unfold applyAlignmentState
  by_cases h : mScale A B = 0
  · simp only [if_pos h]
  · simp only [if_neg h]

/-- C2 (counterexample): with the model currently displayed away from its
stored original transform (current = translation by 1 in x, original =
identity), a degenerate call with pA = pB = (0,0) signals the error but resets
the stored transform to the original — the transform after the call differs
from the transform before it, so the rejected operation is not free of effect
on model state. -/
theorem alignment_degenerate_changes_transform :
    ((applyAlignmentState (fun _ => 0) 0
          ⟨makeTranslation 1 0 0, makeTranslation 0 0 0⟩
          (0, 0) (0, 0) (0, 0) (1, 1)).1.current ≠
        (⟨makeTranslation 1 0 0, makeTranslation 0 0 0⟩ : ModelPose).current) ∧
    (applyAlignmentState (fun _ => 0) 0
        ⟨makeTranslation 1 0 0, makeTranslation 0 0 0⟩
        (0, 0) (0, 0) (0, 0) (1, 1)).2 = AlignOutcome.degenerate := by
  have hdeg : mScale (0, 0) (0, 0) = 0 := by
    unfold mScale mSumSq mCentroid
    norm_num
  have heval : applyAlignmentState (fun _ => 0) 0
      ⟨makeTranslation 1 0 0, makeTranslation 0 0 0⟩
      (0, 0) (0, 0) (0, 0) (1, 1) =
      (⟨makeTranslation 0 0 0, makeTranslation 0 0 0⟩, AlignOutcome.degenerate) := by
    unfold applyAlignmentState
    rw [if_pos hdeg]
  rw [heval]
  refine ⟨?_, rfl⟩
  intro hEq
  have h14 := congrArg Mat4.n14 hEq
  simp only [makeTranslation] at h14
  norm_num at h14

/-- C2 (amended): if the two picked model points coincide, the alignment
signals an error (degenerate outcome) and leaves the model at its stored
pre-alignment reference transform — the reset performed before the degeneracy
check persists, so the stored transform is unchanged exactly when it already
equals the reference transform, and no alignment matrix is applied. -/
theorem alignment_degenerate_resets_to_original (minY : Mat4 → ℝ)
    (drawingY : ℝ) (st : ModelPose) (A B T1 T2 : ℝ × ℝ)
    (h : mScale A B = 0) :
    applyAlignmentState minY drawingY st A B T1 T2 =
      ({ st with current := st.original }, AlignOutcome.degenerate) := by
  unfold applyAlignmentState
  rw [if_pos h]

theorem alignment_degenerate_resets_to_original_witness :
    (mScale (0, 0) (0, 0) = 0) ∧
    (applyAlignmentState (fun _ => 0) 0
        ⟨makeTranslation 0 0 0, makeTranslation 0 0 0⟩
        (0, 0) (0, 0) (0, 0) (1, 1) =
      ({ (⟨makeTranslation 0 0 0, makeTranslation 0 0 0⟩ : ModelPose) with
          current := makeTranslation 0 0 0 }, AlignOutcome.degenerate)) := by
  have hdeg : mScale (0, 0) (0, 0) = 0 := by
    unfold mScale mSumSq mCentroid
    norm_num
  exact ⟨hdeg,
    alignment_degenerate_resets_to_original (fun _ => 0) 0
      ⟨makeTranslation 0 0 0, makeTranslation 0 0 0⟩ (0, 0) (0, 0) (0, 0) (1, 1)
      hdeg⟩

/-! ## Panorama capture visibility handling (`captureFisheyeView`,
IFCViewer.tsx lines 1141-1169)

The visibility flags the capture touches: the detailed model group, the merged
batch group, and the camera-position marker meshes (listed by id). -/

structure SceneVisibility where
  modelVisible : Bool
  mergedVisible : Bool
  markers : List (ℕ × Bool)
deriving DecidableEq, Repr

/-- The restore action of lines 1160-1165 for one marker: reset it to the
saved flag when the save map has an entry for it. -/
def restoreMarker (saved : List (ℕ × Bool)) (m : ℕ × Bool) : ℕ × Bool :=
  match saved.lookup m.1 with
  | some b => (m.1, b)
  | none => m

/-- The visibility phase of `captureFisheyeView`: record
`wasModelHidden` / `wasMergedVisible` and the marker flags (lines 1142-1154),
force the model visible, the merged group hidden and all markers hidden for
the cube render, then restore (lines 1159-1169).  Returns the state during
the capture and the state after the restore. -/
def captureVisibilityPhase (s : SceneVisibility) :
    SceneVisibility × SceneVisibility :=
  let wasModelHidden := s.modelVisible == false
  let wasMergedVisible := s.mergedVisible == true
  let saved := s.markers
  let during : SceneVisibility :=
    { modelVisible := true, mergedVisible := false,
      markers := s.markers.map (fun m => (m.1, false)) }
  let restored : SceneVisibility :=
    { modelVisible := if wasModelHidden then false else during.modelVisible,
      mergedVisible := if wasMergedVisible then true else during.mergedVisible,
      markers := during.markers.map (restoreMarker saved) }
  (during, restored)

/-- In an association list with distinct keys, lookup of a member's key finds
its value. -/
theorem lookup_eq_of_nodup (l : List (ℕ × Bool))
    (h : (l.map Prod.fst).Nodup) (p : ℕ × Bool) (hp : p ∈ l) :
    l.lookup p.1 = some p.2 := by
  induction l with
  | nil => cases hp
  | cons q rest ih =>
      obtain ⟨k, b⟩ := q
      rw [List.map_cons, List.nodup_cons] at h
      rcases List.mem_cons.mp hp with hEq | hp'
      · subst hEq
        simp [List.lookup]
      · have hne : p.1 ≠ k := by
          intro heq
          have hmem : p.1 ∈ List.map Prod.fst rest :=
            List.mem_map_of_mem Prod.fst hp'
          rw [heq] at hmem
          exact h.1 hmem
        have hbeq : (p.1 == k) = false := beq_eq_false_iff_ne.mpr hne
        rw [show List.lookup p.1 ((k, b) :: rest) = List.lookup p.1 rest from by
          simp [List.lookup, hbeq]]
        exact ih h.2 hp'

/-- C8: panorama capture restores the prior visibility state exactly before
returning — the detailed model group, the merged batch group and every
camera-position marker carry the same visibility flag after the capture as
immediately before it (markers are distinct scene objects, hence the distinct
ids). -/
theorem capture_restores_visibility (s : SceneVisibility)
    (h : (s.markers.map Prod.fst).Nodup) :
    (captureVisibilityPhase s).2 = s := by
  obtain ⟨model, merged, markers⟩ := s
  have hmk : (markers.map (fun m => (m.1, false))).map (restoreMarker markers) =
      markers := by
    rw [List.map_map]
    have hfun : ∀ m ∈ markers, (restoreMarker markers ∘ (fun m => (m.1, false))) m = m := by
      intro m hm
      have hl : markers.lookup m.1 = some m.2 := lookup_eq_of_nodup markers h m hm
      simp only [Function.comp_apply, restoreMarker, hl]
    rw [List.map_congr_left hfun]
    simp
  cases model <;> cases merged <;>
    simp [captureVisibilityPhase, hmk]

theorem capture_restores_visibility_witness :
    ((((⟨true, false, [(1, true), (2, false)]⟩ : SceneVisibility)).markers.map
        Prod.fst).Nodup) ∧
    (captureVisibilityPhase ⟨true, false, [(1, true), (2, false)]⟩).2 =
      ⟨true, false, [(1, true), (2, false)]⟩ :=
  ⟨by decide,
   capture_restores_visibility ⟨true, false, [(1, true), (2, false)]⟩ (by decide)⟩

/-! ## Equirectangular remap (`captureFisheyeView`, IFCViewer.tsx
lines 1245-1311) -/

/-- The sampling direction of output pixel (x, y) (lines 1249-1255):
`theta = (x/W)·2π − π + yaw`, `phi = (y/H)·π`, spherical to Cartesian. -/
noncomputable def equiDir (W H : ℕ) (yaw : ℝ) (x y : ℕ) : ℝ × ℝ × ℝ :=
  (Real.sin ((y : ℝ) / (H : ℝ) * Real.pi) *
      Real.sin ((x : ℝ) / (W : ℝ) * 2 * Real.pi - Real.pi + yaw),
   Real.cos ((y : ℝ) / (H : ℝ) * Real.pi),
   Real.sin ((y : ℝ) / (H : ℝ) * Real.pi) *
      Real.cos ((x : ℝ) / (W : ℝ) * 2 * Real.pi - Real.pi + yaw))

/-- Face selection and in-face UV (lines 1258-1295): the if-chain on the
absolute components, with the per-face sign and axis-swap rules of the code. -/
noncomputable def faceUV (d : ℝ × ℝ × ℝ) : ℕ × ℝ × ℝ :=
  if |d.1| ≥ |d.2.1| ∧ |d.1| ≥ |d.2.2| then
    if d.1 > 0 then (0, -d.2.2 / |d.1|, -d.2.1 / |d.1|)
    else (1, d.2.2 / |d.1|, -d.2.1 / |d.1|)
  else if |d.2.1| ≥ |d.1| ∧ |d.2.1| ≥ |d.2.2| then
    if d.2.1 > 0 then (2, d.1 / |d.2.1|, d.2.2 / |d.2.1|)
    else (3, d.1 / |d.2.1|, -d.2.2 / |d.2.1|)
  else
    if d.2.2 > 0 then (4, d.1 / |d.2.2|, -d.2.1 / |d.2.2|)
    else (5, -d.1 / |d.2.2|, -d.2.1 / |d.2.2|)

/-- UV to face-image pixel index (lines 1298-1299):
`floor(((u+1)/2)·(cubeSize−1))`, i.e. point sampling with no interpolation. -/
noncomputable def uvToPixel (cubeSize : ℕ) (u : ℝ) : ℤ :=
  ⌊(u + 1) / 2 * ((cubeSize : ℝ) - 1)⌋

/-- One output pixel of the equirectangular image (lines 1245-1310): sample
the selected face image (abstracted as an RGB lookup per face and pixel) at
the computed pixel, copying its colour with alpha forced to 255. -/
noncomputable def equirectPixel (cubeSize W H : ℕ) (yaw : ℝ)
    (faces : ℕ → ℤ → ℤ → ℕ × ℕ × ℕ) (x y : ℕ) : ℕ × ℕ × ℕ × ℕ :=
  ((faces (faceUV (equiDir W H yaw x y)).1
      (uvToPixel cubeSize (faceUV (equiDir W H yaw x y)).2.1)
      (uvToPixel cubeSize (faceUV (equiDir W H yaw x y)).2.2)).1,
   (faces (faceUV (equiDir W H yaw x y)).1
      (uvToPixel cubeSize (faceUV (equiDir W H yaw x y)).2.1)
      (uvToPixel cubeSize (faceUV (equiDir W H yaw x y)).2.2)).2.1,
   (faces (faceUV (equiDir W H yaw x y)).1
      (uvToPixel cubeSize (faceUV (equiDir W H yaw x y)).2.1)
      (uvToPixel cubeSize (faceUV (equiDir W H yaw x y)).2.2)).2.2,
   255)

/-- The component of a direction along a face's dominant axis
(faces 0/1 are ±X, 2/3 are ±Y, 4/5 are ±Z). -/
noncomputable def axisValue (d : ℝ × ℝ × ℝ) (f : ℕ) : ℝ :=
  if f ≤ 1 then d.1 else if f ≤ 3 then d.2.1 else d.2.2

/-- Case analysis of the face-selection chain: the chosen face's axis carries
the maximal absolute component, the dominant component's sign matches the
face's sign, and the in-face UV is the pair of remaining components divided by
the dominant magnitude under the fixed per-face sign/axis-swap rules. -/
theorem faceUV_spec (d : ℝ × ℝ × ℝ) :
    (faceUV d).1 < 6 ∧
    |axisValue d (faceUV d).1| = max |d.1| (max |d.2.1| |d.2.2|) ∧
    ((faceUV d).1 % 2 = 0 → 0 < axisValue d (faceUV d).1) ∧
    ((faceUV d).1 % 2 = 1 → axisValue d (faceUV d).1 ≤ 0) ∧
    ((faceUV d).1 = 0 → (faceUV d).2 = (-d.2.2 / |d.1|, -d.2.1 / |d.1|)) ∧
    ((faceUV d).1 = 1 → (faceUV d).2 = (d.2.2 / |d.1|, -d.2.1 / |d.1|)) ∧
    ((faceUV d).1 = 2 → (faceUV d).2 = (d.1 / |d.2.1|, d.2.2 / |d.2.1|)) ∧
    ((faceUV d).1 = 3 → (faceUV d).2 = (d.1 / |d.2.1|, -d.2.2 / |d.2.1|)) ∧
    ((faceUV d).1 = 4 → (faceUV d).2 = (d.1 / |d.2.2|, -d.2.1 / |d.2.2|)) ∧
    ((faceUV d).1 = 5 → (faceUV d).2 = (-d.1 / |d.2.2|, -d.2.1 / |d.2.2|)) := by
  unfold faceUV
  by_cases h1 : |d.1| ≥ |d.2.1| ∧ |d.1| ≥ |d.2.2|
  · rw [if_pos h1]
    by_cases h2 : d.1 > 0
    · rw [if_pos h2]
      refine ⟨by norm_num, ?_, ?_, ?_, ?_, ?_, ?_, ?_, ?_, ?_⟩ <;>
        norm_num [axisValue]
      · exact ⟨h1.1, h1.2⟩
      · exact h2
    · rw [if_neg h2]
      refine ⟨by norm_num, ?_, ?_, ?_, ?_, ?_, ?_, ?_, ?_, ?_⟩ <;>
        norm_num [axisValue]
      · exact ⟨h1.1, h1.2⟩
      · exact le_of_not_lt h2
  · rw [if_neg h1]
    by_cases h3 : |d.2.1| ≥ |d.1| ∧ |d.2.1| ≥ |d.2.2|
    · rw [if_pos h3]
      by_cases h4 : d.2.1 > 0
      · rw [if_pos h4]
        refine ⟨by norm_num, ?_, ?_, ?_, ?_, ?_, ?_, ?_, ?_, ?_⟩ <;>
          norm_num [axisValue]
        · exact (show |d.1| ⊔ (|d.2.1| ⊔ |d.2.2|) = |d.2.1| by
            rw [max_eq_left h3.2, max_eq_right h3.1]).symm
        · exact h4
      · rw [if_neg h4]
        refine ⟨by norm_num, ?_, ?_, ?_, ?_, ?_, ?_, ?_, ?_, ?_⟩ <;>
          norm_num [axisValue]
        · exact (show |d.1| ⊔ (|d.2.1| ⊔ |d.2.2|) = |d.2.1| by
            rw [max_eq_left h3.2, max_eq_right h3.1]).symm
        · exact le_of_not_lt h4
    · rw [if_neg h3]
      push_neg at h1 h3
      have hz : |d.1| ≤ |d.2.2| ∧ |d.2.1| ≤ |d.2.2| := by
        rcases le_total |d.1| |d.2.1| with hca | hca
        · exact ⟨le_trans hca (h3 hca).le, (h3 hca).le⟩
        · exact ⟨(h1 hca).le, le_trans hca (h1 hca).le⟩
      by_cases h5 : d.2.2 > 0
      · rw [if_pos h5]
        refine ⟨by norm_num, ?_, ?_, ?_, ?_, ?_, ?_, ?_, ?_, ?_⟩ <;>
          norm_num [axisValue]
        · exact (show |d.1| ⊔ (|d.2.1| ⊔ |d.2.2|) = |d.2.2| by
            rw [max_eq_right hz.2, max_eq_right hz.1]).symm
        · exact h5
      · rw [if_neg h5]
        refine ⟨by norm_num, ?_, ?_, ?_, ?_, ?_, ?_, ?_, ?_, ?_⟩ <;>
          norm_num [axisValue]
        · exact (show |d.1| ⊔ (|d.2.1| ⊔ |d.2.2|) = |d.2.2| by
            rw [max_eq_right hz.2, max_eq_right hz.1]).symm
        · exact le_of_not_lt h5

/-- C9: for every output pixel (x, y), the sampling direction has longitude
(x/W)·2π − π + yawOffset and latitude (y/H)·π converted to a unit direction via
spherical-to-Cartesian; the source cube face is selected by the direction's
dominant axis (its component attains the largest absolute value, with the
face's sign matching the component's sign); the in-face UV is the pair of
remaining components divided by the dominant magnitude under the fixed
per-face sign/axis-swap rules; the face image is point-sampled at
floor(((uv+1)/2)·(cubeSize−1)); and the output alpha is always fully
opaque (255). -/
theorem equirect_pixel_mapping (cubeSize W H : ℕ) (yaw : ℝ)
    (faces : ℕ → ℤ → ℤ → ℕ × ℕ × ℕ) (x y : ℕ) :
    equiDir W H yaw x y =
      (Real.sin ((y : ℝ) / (H : ℝ) * Real.pi) *
          Real.sin ((x : ℝ) / (W : ℝ) * 2 * Real.pi - Real.pi + yaw),
       Real.cos ((y : ℝ) / (H : ℝ) * Real.pi),
       Real.sin ((y : ℝ) / (H : ℝ) * Real.pi) *
          Real.cos ((x : ℝ) / (W : ℝ) * 2 * Real.pi - Real.pi + yaw)) ∧
    (equiDir W H yaw x y).1 ^ 2 + (equiDir W H yaw x y).2.1 ^ 2 +
        (equiDir W H yaw x y).2.2 ^ 2 = 1 ∧
    (faceUV (equiDir W H yaw x y)).1 < 6 ∧
    |axisValue (equiDir W H yaw x y) (faceUV (equiDir W H yaw x y)).1| =
      max |(equiDir W H yaw x y).1|
        (max |(equiDir W H yaw x y).2.1| |(equiDir W H yaw x y).2.2|) ∧
    ((faceUV (equiDir W H yaw x y)).1 % 2 = 0 →
      0 < axisValue (equiDir W H yaw x y) (faceUV (equiDir W H yaw x y)).1) ∧
    ((faceUV (equiDir W H yaw x y)).1 % 2 = 1 →
      axisValue (equiDir W H yaw x y) (faceUV (equiDir W H yaw x y)).1 ≤ 0) ∧
    ((faceUV (equiDir W H yaw x y)).1 = 0 →
      (faceUV (equiDir W H yaw x y)).2 =
        (-(equiDir W H yaw x y).2.2 / |(equiDir W H yaw x y).1|,
         -(equiDir W H yaw x y).2.1 / |(equiDir W H yaw x y).1|)) ∧
    ((faceUV (equiDir W H yaw x y)).1 = 1 →
      (faceUV (equiDir W H yaw x y)).2 =
        ((equiDir W H yaw x y).2.2 / |(equiDir W H yaw x y).1|,
         -(equiDir W H yaw x y).2.1 / |(equiDir W H yaw x y).1|)) ∧
    ((faceUV (equiDir W H yaw x y)).1 = 2 →
      (faceUV (equiDir W H yaw x y)).2 =
        ((equiDir W H yaw x y).1 / |(equiDir W H yaw x y).2.1|,
         (equiDir W H yaw x y).2.2 / |(equiDir W H yaw x y).2.1|)) ∧
    ((faceUV (equiDir W H yaw x y)).1 = 3 →
      (faceUV (equiDir W H yaw x y)).2 =
        ((equiDir W H yaw x y).1 / |(equiDir W H yaw x y).2.1|,
         -(equiDir W H yaw x y).2.2 / |(equiDir W H yaw x y).2.1|)) ∧
    ((faceUV (equiDir W H yaw x y)).1 = 4 →
      (faceUV (equiDir W H yaw x y)).2 =
        ((equiDir W H yaw x y).1 / |(equiDir W H yaw x y).2.2|,
         -(equiDir W H yaw x y).2.1 / |(equiDir W H yaw x y).2.2|)) ∧
    ((faceUV (equiDir W H yaw x y)).1 = 5 →
      (faceUV (equiDir W H yaw x y)).2 =
        (-(equiDir W H yaw x y).1 / |(equiDir W H yaw x y).2.2|,
         -(equiDir W H yaw x y).2.1 / |(equiDir W H yaw x y).2.2|)) ∧
    (∀ u : ℝ, uvToPixel cubeSize u = ⌊(u + 1) / 2 * ((cubeSize : ℝ) - 1)⌋) ∧
    equirectPixel cubeSize W H yaw faces x y =
      ((faces (faceUV (equiDir W H yaw x y)).1
          (uvToPixel cubeSize (faceUV (equiDir W H yaw x y)).2.1)
          (uvToPixel cubeSize (faceUV (equiDir W H yaw x y)).2.2)).1,
       (faces (faceUV (equiDir W H yaw x y)).1
          (uvToPixel cubeSize (faceUV (equiDir W H yaw x y)).2.1)
          (uvToPixel cubeSize (faceUV (equiDir W H yaw x y)).2.2)).2.1,
       (faces (faceUV (equiDir W H yaw x y)).1
          (uvToPixel cubeSize (faceUV (equiDir W H yaw x y)).2.1)
          (uvToPixel cubeSize (faceUV (equiDir W H yaw x y)).2.2)).2.2,
       255) := by
  obtain ⟨hlt, hdom, hev, hodd, hf0, hf1, hf2, hf3, hf4, hf5⟩ :=
    faceUV_spec (equiDir W H yaw x y)
  refine ⟨rfl, ?_, hlt, hdom, hev, hodd, hf0, hf1, hf2, hf3, hf4, hf5,
    fun _ => rfl, rfl⟩
  show (Real.sin ((y : ℝ) / (H : ℝ) * Real.pi) *
      Real.sin ((x : ℝ) / (W : ℝ) * 2 * Real.pi - Real.pi + yaw)) ^ 2 +
      Real.cos ((y : ℝ) / (H : ℝ) * Real.pi) ^ 2 +
      (Real.sin ((y : ℝ) / (H : ℝ) * Real.pi) *
      Real.cos ((x : ℝ) / (W : ℝ) * 2 * Real.pi - Real.pi + yaw)) ^ 2 = 1
  calc (Real.sin ((y : ℝ) / (H : ℝ) * Real.pi) *
        Real.sin ((x : ℝ) / (W : ℝ) * 2 * Real.pi - Real.pi + yaw)) ^ 2 +
        Real.cos ((y : ℝ) / (H : ℝ) * Real.pi) ^ 2 +
        (Real.sin ((y : ℝ) / (H : ℝ) * Real.pi) *
        Real.cos ((x : ℝ) / (W : ℝ) * 2 * Real.pi - Real.pi + yaw)) ^ 2
      = Real.sin ((y : ℝ) / (H : ℝ) * Real.pi) ^ 2 *
          (Real.sin ((x : ℝ) / (W : ℝ) * 2 * Real.pi - Real.pi + yaw) ^ 2 +
            Real.cos ((x : ℝ) / (W : ℝ) * 2 * Real.pi - Real.pi + yaw) ^ 2) +
          Real.cos ((y : ℝ) / (H : ℝ) * Real.pi) ^ 2 := by ring
    _ = 1 := by
        rw [Real.sin_sq_add_cos_sq, mul_one, Real.sin_sq_add_cos_sq]

end IFCView
